import Mathlib

/-!
Blobber: reference hashes, change collector and validation tickets

A shallow embedding of four Go source files of the blobber storage node

* `reference/fileref.go`          (FileRef, GetHashData, CalculateHash)
* `challenge/entity.go`           (ValidationTicket.VerifySign, ChallengeEntity)
* `allocation/allocationchange.go` (AllocationChangeCollector and its operations)
* `badgerdbstore/store.go`        (Store.Read / Write / Delete over a badger transaction)

Conventions of the embedding.

* A Go `string` is a Lean `String`; `int64` and `common.Timestamp` are `Int`
  (every int64 value is an `Int`; nothing here relies on wrap-around).
* A Go `error` is `Option GoError` (`none` is `nil`); a `(T, error)` result is the
  pair of both values. Pointers are taken non-nil, except the interface arguments
  `fileStore` and `dbStore` that the code compares with `nil`, which are `Option`s.
* Packages that the four files import but that are not part of them
  (`encryption`, `common`, `path/filepath`, the rest of `reference`, ...) are
  taken as parameters, collected in `Env`.
* Collaborators with state (the datastore, the file store, the badger
  transaction) act on an abstract world state `σ`; every call made to them is
  appended to a call log with its outcome, which is how order and number of calls
  are stated. The context is taken to carry the badger transaction, so that
  `GetConnection(ctx)` is the same transaction throughout.
-/

namespace Blobber

/-! ## Go primitives -/

/-- Go conversion `string(i)` of an integer `i`: the UTF-8 text of the single code point `i`,
and of U+FFFD when `i` is not a valid code point (negative, surrogate, above 0x10FFFF). -/
def stringOfInt64 (i : Int) : String :=
  if 0 ≤ i ∧ i.toNat.isValidChar then String.singleton (Char.ofNat i.toNat)
  else String.singleton (Char.ofNat 0xFFFD)

/-- Go `strings.Join(elems, sep)`. -/
def strings.Join (elems : List String) (sep : String) : String :=
  sep.intercalate elems

/-- Go `strconv.FormatInt(i, 10)`, which is also how `%v` prints an integer type. -/
def FormatInt (i : Int) : String :=
  match i with
  | Int.ofNat n => Nat.repr n
  | Int.negSucc n => "-" ++ Nat.repr (n + 1)

/-- The number that a string of decimal digits denotes, read left to right from `acc`; the
inverse of the decimal rendering. -/
def decValue (acc : Nat) (cs : List Char) : Nat :=
  cs.foldl (fun a c => a * 10 + (c.toNat - 48)) acc

/-- Go `strconv.FormatBool`, which is also how `%v` prints a bool. -/
def FormatBool (b : Bool) : String :=
  if b then "true" else "false"

/-- The operand kinds that the `fmt.Sprintf` calls of this code pass. -/
inductive GoValue where
  | str (s : String)
  | bool (b : Bool)
  | int (i : Int)
  deriving DecidableEq, Repr

/-- Go `%v` of one operand. -/
def GoValue.format : GoValue → String
  | .str s => s
  | .bool b => FormatBool b
  | .int i => FormatInt i

/-- The scanning loop of `fmt.Sprintf` for format strings whose only verb is `%v`: literal
characters are copied, each `%v` consumes the next operand. -/
def sprintfLoop : List Char → List GoValue → String → String
  | [], _, acc => acc
  | '%' :: 'v' :: rest, a :: as, acc => sprintfLoop rest as (acc ++ a.format)
  | '%' :: 'v' :: rest, [], acc => sprintfLoop rest [] (acc ++ "%!v(MISSING)")
  | c :: rest, as, acc => sprintfLoop rest as (acc.push c)

/-- Go `fmt.Sprintf(format, args...)` restricted to the `%v` verb. -/
def Sprintf (format : String) (args : List GoValue) : String :=
  sprintfLoop format.data args ""

/-! ## Errors -/

/-- A Go `error` value, as far as this code tells errors apart. -/
inductive GoError where
  /-- The sentinel `badger.ErrKeyNotFound`. -/
  | badgerErrKeyNotFound
  /-- The sentinel `datastore.ErrKeyNotFound`. -/
  | datastoreErrKeyNotFound
  /-- The value `common.NewError(code, msg)`. -/
  | commonError (code : String) (msg : String)
  /-- Any other error, identified by a text. -/
  | other (text : String)
  deriving DecidableEq, Repr

/-- Go `common.NewError`. -/
def common.NewError (code msg : String) : GoError :=
  GoError.commonError code msg

/-! ## reference: Ref and FileRef -/

/-- Modelled from the spec: the struct `reference.Ref` (declared in a file of the package
that is not among the four), a tree node with AllocationID, Path, Type, ChildRefs, Hash,
Version, CreationDate, to which the code under study adds the uses `Name` and `ParentRef`. -/
structure Ref where
  Version : String := ""
  CreationDate : Int := 0
  /-- Go field `Type` (a reserved word here). -/
  Type_ : String := ""
  AllocationID : String := ""
  Name : String := ""
  Path : String := ""
  Hash : String := ""
  ParentRef : String := ""
  ChildRefs : List String := []
  deriving DecidableEq, Repr

/-- Go struct `reference.FileRef` (`fileref.go`), which embeds `Ref`. -/
structure FileRef extends Ref where
  CustomMeta : String := ""
  ContentHash : String := ""
  Size : Int := 0
  MerkleRoot : String := ""
  ActualFileSize : Int := 0
  ActualFileHash : String := ""
  deriving DecidableEq, Repr

/-- The functions and constants of other packages that the code calls. -/
structure Env where
  /-- Go `encryption.Hash`. -/
  Hash : String → String
  /-- Go `encryption.Verify(publicKey, signature, hash)`. -/
  Verify : String → String → String → Bool × Option GoError
  /-- Go `reference.GetReferenceLookup(allocationID, path)`. -/
  GetReferenceLookup : String → String → String
  /-- Go constant `reference.FILE`. -/
  FILE : String
  /-- Go `err.Error()`. -/
  ErrorText : GoError → String
  /-- Go `filepath.Split`. -/
  Split : String → String × String
  /-- Go `filepath.Clean`. -/
  Clean : String → String
  /-- Go `(*reference.Ref).GetKey`. -/
  RefGetKey : Ref → String
  /-- Go `datastore.ToKey`. -/
  ToKey : String → String

/-- Go `FileRefProvider`, the clock reading `common.Now()` being `now`. -/
def FileRefProvider (env : Env) (now : Int) : FileRef :=
  { Version := "1.0", CreationDate := now, Type_ := env.FILE }

/-- Go `(*FileRef).GetHashData`: `make([]string, 9)` is a slice of nine empty strings, to
which the nine values are appended. -/
def FileRef.GetHashData (fr : FileRef) : String :=
  let hashArray : List String := List.replicate 9 ""
  let hashArray := hashArray ++ [fr.AllocationID]
  let hashArray := hashArray ++ [fr.Type_]
  let hashArray := hashArray ++ [fr.Name]
  let hashArray := hashArray ++ [fr.Path]
  let hashArray := hashArray ++ [stringOfInt64 fr.Size]
  let hashArray := hashArray ++ [fr.ContentHash]
  let hashArray := hashArray ++ [fr.MerkleRoot]
  let hashArray := hashArray ++ [stringOfInt64 fr.ActualFileSize]
  let hashArray := hashArray ++ [fr.ActualFileHash]
  strings.Join hashArray ":"

/-- The nine values that `GetHashData` appends, as rendered. -/
def FileRef.hashComponents (fr : FileRef) : List String :=
  [fr.AllocationID, fr.Type_, fr.Name, fr.Path, stringOfInt64 fr.Size, fr.ContentHash,
    fr.MerkleRoot, stringOfInt64 fr.ActualFileSize, fr.ActualFileHash]

/-- Go `(*FileRef).CalculateHash`: the updated receiver and the returned `(string, error)`. -/
def FileRef.CalculateHash (env : Env) (fr : FileRef) : FileRef × String × Option GoError :=
  let fr1 : FileRef := { fr with Hash := env.Hash fr.GetHashData }
  (fr1, fr1.Hash, none)

/-- Go `(*FileRef).GetKey`; the metadata's DB name is the `"fileref"` set by
`SetupFileRefEntity`. -/
def FileRef.GetKey (env : Env) (fr : FileRef) : String :=
  "fileref" ++ ":" ++ env.GetReferenceLookup fr.AllocationID fr.Path

/-- The FileRef of the scenario of section 8 of the specification: allocation `A1`, file
`/docs/readme.txt` of 120 bytes with content hash `h1`. -/
def readmeRef : FileRef :=
  { AllocationID := "A1", Type_ := "f", Name := "readme.txt", Path := "/docs/readme.txt",
    Size := 120, ContentHash := "h1" }

/-- A FileRef of a 2 000 000 byte file. -/
def bigRef : FileRef :=
  { AllocationID := "A1", Type_ := "f", Name := "movie.bin", Path := "/movie.bin",
    Size := 2000000, ContentHash := "h2", ActualFileSize := 2000000 }

/-! ## challenge: ValidationTicket -/

/-- Modelled from the spec: the type `common.Timestamp`, whose declaration is not among the
four files, is an int64 that `%v` prints in decimal. -/
abbrev common.Timestamp : Type := Int

/-- Go struct `challenge.ValidationTicket`. -/
structure ValidationTicket where
  ChallengeID : String := ""
  BlobberID : String := ""
  ValidatorID : String := ""
  ValidatorKey : String := ""
  Result : Bool := false
  Message : String := ""
  MessageCode : String := ""
  Timestamp : common.Timestamp := 0
  Signature : String := ""
  deriving DecidableEq, Repr

/-- The local `hashData` of `VerifySign`. -/
def ValidationTicket.hashData (vt : ValidationTicket) : String :=
  Sprintf "%v:%v:%v:%v:%v:%v"
    [.str vt.ChallengeID, .str vt.BlobberID, .str vt.ValidatorID, .str vt.ValidatorKey,
      .bool vt.Result, .int vt.Timestamp]

/-- Go `(*ValidationTicket).VerifySign`. -/
def ValidationTicket.VerifySign (env : Env) (vt : ValidationTicket) : Bool × Option GoError :=
  let hashData := vt.hashData
  let hash := env.Hash hashData
  let (verified, err) := env.Verify vt.ValidatorKey vt.Signature hash
  (verified, err)

/-! ## A concrete environment, used to run the definitions on examples -/

/-- The elements of a path between slashes. -/
def splitSlash : List Char → List (List Char)
  | [] => [[]]
  | c :: cs =>
    match splitSlash cs with
    | [] => if c = '/' then [[], []] else [[c]]
    | w :: ws => if c = '/' then [] :: w :: ws else (c :: w) :: ws

/-- The element stack of `filepath.Clean`: empty and `.` elements are dropped, `..` removes
the element before it, or stays when there is none and the path is not rooted. -/
def cleanElems (rooted : Bool) : List (List Char) → List (List Char) → List (List Char)
  | [], out => out.reverse
  | e :: es, out =>
    if e = [] ∨ e = ['.'] then cleanElems rooted es out
    else if e = ['.', '.'] then
      match out with
      | [] => if rooted then cleanElems rooted es [] else cleanElems rooted es [e]
      | o :: os => if o = ['.', '.'] then cleanElems rooted es (e :: o :: os)
                   else cleanElems rooted es os
    else cleanElems rooted es (e :: out)

/-- Go `filepath.Clean` on slash-separated paths. -/
def slashClean (path : String) : String :=
  let rooted := path.data.head? = some '/'
  let body := String.mk (List.intercalate ['/'] (cleanElems rooted (splitSlash path.data) []))
  let res := if rooted then "/" ++ body else body
  if res = "" then "." else res

/-- Go `filepath.Split` on slash-separated paths: the cut is after the last slash. -/
def slashSplit (path : String) : String × String :=
  let r := path.data.reverse
  (String.mk (r.dropWhile (fun c => c ≠ '/')).reverse,
    String.mk (r.takeWhile (fun c => c ≠ '/')).reverse)

/-- A toy environment: the hash is the identity, a signature is valid when it is the digest
itself, lookup keys are `allocationID:path`. -/
def toyEnv : Env where
  Hash := fun s => s
  Verify := fun _ sig hash => (decide (sig = hash), none)
  GetReferenceLookup := fun a p => a ++ ":" ++ p
  FILE := "f"
  ErrorText := fun e =>
    match e with
    | .badgerErrKeyNotFound => "Key not found"
    | .datastoreErrKeyNotFound => "key not found"
    | .commonError code msg => code ++ ": " ++ msg
    | .other text => text
  Split := slashSplit
  Clean := slashClean
  RefGetKey := fun r => "ref" ++ ":" ++ r.AllocationID ++ ":" ++ r.Path
  ToKey := fun k => k

/-- A ticket signed under `toyEnv`. -/
def toyTicket : ValidationTicket :=
  { ChallengeID := "c1", BlobberID := "b1", ValidatorID := "v1", ValidatorKey := "k1",
    Result := true, Message := "ok", Timestamp := 1700000000,
    Signature := "c1:b1:v1:k1:true:1700000000" }

/-! ## Collaborators: call log and world -/

/-- Go struct `filestore.FileInputData`, with the three fields this code sets. -/
structure FileInputData where
  Name : String := ""
  Path : String := ""
  Hash : String := ""
  deriving DecidableEq, Repr

/-- A call made to a collaborator, with its arguments. -/
inductive Call where
  /-- Method `fileStore.DeleteTempFile(allocationID, fileData, connectionID)`. -/
  | DeleteTempFile (allocationID : String) (fileData : FileInputData) (connectionID : String)
  /-- Method `fileStore.CommitWrite(allocationID, fileData, connectionID)`. -/
  | CommitWrite (allocationID : String) (fileData : FileInputData) (connectionID : String)
  /-- Method `dbStore.Write(ctx, fileref)`. -/
  | Write (fileref : FileRef)
  /-- Function `reference.CreateDirRefsIfNotExists(ctx, allocationID, dir, childKey, dbStore)`. -/
  | CreateDirRefsIfNotExists (allocationID : String) (dir : String) (childKey : String)
  /-- Method `dbStore.Read(ctx, key, ref)`. -/
  | Read (key : String) (ref : Ref)
  /-- Function `reference.RecalculateHashBottomUp(ctx, ref, dbStore)`. -/
  | RecalculateHashBottomUp (ref : Ref)
  /-- Function `reference.GetRootReferenceFromStore(ctx, allocationID, dbStore)`. -/
  | GetRootReferenceFromStore (allocationID : String)
  /-- Method `txn.Delete(key)` of the badger transaction. -/
  | TxnDelete (key : String)
  /-- Method `txn.Set(key, value)` of the badger transaction. -/
  | TxnSet (key : String) (value : String)
  deriving DecidableEq, Repr

/-- A logged call: `ok` tells whether it returned a nil error. -/
structure Event where
  call : Call
  ok : Bool
  deriving DecidableEq, Repr

/-- The state of everything outside the code (`state`) and the calls made so far. -/
structure World (σ : Type) where
  state : σ
  log : List Event

/-- Record a call and the state it leaves. -/
def World.record {σ : Type} (w : World σ) (c : Call) (err : Option GoError) (s : σ) : World σ :=
  { state := s, log := w.log ++ [{ call := c, ok := err.isNone }] }

/-- Go interface `filestore.FileStore`: the two methods this code calls. -/
structure FileStore (σ : Type) where
  DeleteTempFile : String → FileInputData → String → σ → Option GoError × σ
  CommitWrite : String → FileInputData → String → σ → (Bool × Option GoError) × σ

/-- Go interface `datastore.Store`: the two methods `ApplyChanges` calls on `dbStore`.
`Read` decodes into the entity it is given and returns it with the error. -/
structure Store (σ : Type) where
  Read : String → Ref → σ → (Ref × Option GoError) × σ
  Write : FileRef → σ → Option GoError × σ

/-- The functions of package `reference` that `ApplyChanges` calls and that are declared
outside the four files, with the clock `common.Now()` that the providers read. -/
structure Reference (σ : Type) where
  Now : σ → Int
  RefProvider : σ → Ref
  CreateDirRefsIfNotExists : Store σ → String → String → String → σ → Option GoError × σ
  RecalculateHashBottomUp : Store σ → Ref → σ → Option GoError × σ
  GetRootReferenceFromStore : Store σ → String → σ → (Option Ref × Option GoError) × σ

/-- The methods of the `*badger.Txn` that the context carries (`GetConnection(ctx)`), with
`item.ValueCopy`; `ι` is the type of items. -/
structure Badger (σ : Type) (ι : Type) where
  Get : String → σ → Except GoError ι
  ValueCopy : ι → Except GoError String
  Set : String → String → σ → Option GoError × σ
  Delete : String → σ → Option GoError × σ

/-! ## badgerdbstore: Store -/

/-- Go `(*badgerdbstore.Store).Read`; `decode` is the JSON decoding into the entity. -/
def badgerdbstore.Read {σ ι α : Type} (db : Badger σ ι)
    (decode : String → α → α × Option GoError) (key : String) (entity : α) (w : World σ) :
    α × Option GoError :=
  match db.Get key w.state with
  | .error err =>
    if err = GoError.badgerErrKeyNotFound then (entity, some GoError.datastoreErrKeyNotFound)
    else (entity, some err)
  | .ok item =>
    match db.ValueCopy item with
    | .error err => (entity, some err)
    | .ok valCopy =>
      match decode valCopy entity with
      | (entity1, some err) => (entity1, some err)
      | (entity1, none) => (entity1, none)

/-- Go `(*badgerdbstore.Store).Write`; `encode` is the JSON encoding of the entity and
`key` its `GetKey()`. -/
def badgerdbstore.Write {σ ι : Type} (db : Badger σ ι) (encoded : Except GoError String)
    (key : String) (w : World σ) : Option GoError × World σ :=
  match encoded with
  | .error err => (some err, w)
  | .ok b =>
    match db.Set key b w.state with
    | (some err, s) => (some err, w.record (Call.TxnSet key b) (some err) s)
    | (none, s) => (none, w.record (Call.TxnSet key b) none s)

/-- Go `(*badgerdbstore.Store).Delete`; `key` is the entity's `GetKey()`. -/
def badgerdbstore.Delete {σ ι : Type} (db : Badger σ ι) (key : String) (w : World σ) :
    Option GoError × World σ :=
  match db.Delete key w.state with
  | (some err, s) => (some err, w.record (Call.TxnDelete key) (some err) s)
  | (none, s) => (none, w.record (Call.TxnDelete key) none s)

/-! ## allocation: AllocationChangeCollector -/

/-- Go constant `INSERT_OPERATION`. -/
def INSERT_OPERATION : String := "insert"

/-- Go constant `DELETE_OPERATION`. -/
def DELETE_OPERATION : String := "delete"

/-- Go struct `UploadFormData`. -/
structure UploadFormData where
  ConnectionID : String := ""
  Filename : String := ""
  Path : String := ""
  Hash : String := ""
  MerkleRoot : String := ""
  ActualHash : String := ""
  ActualSize : Int := 0
  CustomMeta : String := ""
  deriving DecidableEq, Repr

/-- Go struct `AllocationChange`; the embedded `*UploadFormData` is taken non-nil. -/
structure AllocationChange extends UploadFormData where
  Size : Int := 0
  NumBlocks : Int := 0
  Operation : String := ""
  deriving DecidableEq, Repr

/-- A Go `map[string]*AllocationChange`: the value stored under each key, if any. -/
abbrev ChangeMapT : Type := String → Option AllocationChange

/-- The empty map `make(map[string]*AllocationChange, 0)`. -/
def ChangeMapT.empty : ChangeMapT := fun _ => none

/-- The assignment `m[key] = change`. -/
def ChangeMapT.set (m : ChangeMapT) (key : String) (change : AllocationChange) : ChangeMapT :=
  fun k => if k = key then some change else m k

/-- Go struct `AllocationChangeCollector`. -/
structure AllocationChangeCollector where
  ConnectionID : String := ""
  AllocationID : String := ""
  ClientID : String := ""
  Size : Int := 0
  LastUpdated : Int := 0
  Changes : List AllocationChange := []
  ChangeMap : ChangeMapT := ChangeMapT.empty

/-- Go `AllocationChangeCollectorProvider`. -/
def AllocationChangeCollectorProvider : AllocationChangeCollector :=
  { ChangeMap := ChangeMapT.empty }

/-- Go `(*AllocationChangeCollector).GetKey`; the metadata's DB name is the
`"allocation_change"` set by `SetupAllocationChangeCollectorEntity`. -/
def AllocationChangeCollector.GetKey (env : Env) (a : AllocationChangeCollector) : String :=
  env.ToKey ("allocation_change" ++ ":" ++ env.Hash (a.AllocationID ++ ":" ++ a.ConnectionID))

/-- Go `(*AllocationChangeCollector).ComputeChangeMap`. -/
def AllocationChangeCollector.ComputeChangeMap (env : Env) (a : AllocationChangeCollector) :
    AllocationChangeCollector :=
  { a with
    ChangeMap := List.foldl
      (fun (m : ChangeMapT) element =>
        m.set (env.GetReferenceLookup a.AllocationID element.Path) element)
      a.ChangeMap a.Changes }

/-- Go `(*AllocationChangeCollector).AddChange`. -/
def AllocationChangeCollector.AddChange (env : Env) (a : AllocationChangeCollector)
    (change : AllocationChange) : AllocationChangeCollector :=
  let a1 : AllocationChangeCollector := { a with Changes := a.Changes ++ [change] }
  let key := env.GetReferenceLookup a1.AllocationID change.Path
  { a1 with ChangeMap := a1.ChangeMap.set key change }

/-- Go `(*AllocationChangeCollector).Delete`, the store of the metadata being the badger
store. -/
def AllocationChangeCollector.Delete {σ ι : Type} (env : Env) (db : Badger σ ι)
    (a : AllocationChangeCollector) (w : World σ) : Option GoError × World σ :=
  badgerdbstore.Delete db (a.GetKey env) w

/-- The `for` loop of `DeleteChanges` over the remaining changes. -/
def AllocationChangeCollector.deleteLoop {σ : Type} (fileStore : FileStore σ)
    (a : AllocationChangeCollector) : List AllocationChange → World σ → Option GoError × World σ
  | [], w => (none, w)
  | change :: rest, w =>
    if change.Operation = INSERT_OPERATION then
      let fileInputData : FileInputData :=
        { Name := change.Filename, Path := change.Path, Hash := change.Hash }
      match fileStore.DeleteTempFile a.AllocationID fileInputData a.ConnectionID w.state with
      | (some err, s) =>
        (some err, w.record
          (Call.DeleteTempFile a.AllocationID fileInputData a.ConnectionID) (some err) s)
      | (none, s) =>
        deleteLoop fileStore a rest (w.record
          (Call.DeleteTempFile a.AllocationID fileInputData a.ConnectionID) none s)
    else deleteLoop fileStore a rest w

/-- Go `(*AllocationChangeCollector).DeleteChanges`. -/
def AllocationChangeCollector.DeleteChanges {σ ι : Type} (env : Env) (db : Badger σ ι)
    (fileStore : FileStore σ) (a : AllocationChangeCollector) (w : World σ) :
    Option GoError × World σ :=
  match a.deleteLoop fileStore a.Changes w with
  | (some err, w1) => (some err, w1)
  | (none, w1) => a.Delete env db w1

/-- The `for` loop of `CommitToFileStore` over the remaining changes; a nil `fileStore` is
`none`. -/
def AllocationChangeCollector.commitLoop {σ : Type} (env : Env)
    (fileStore : Option (FileStore σ)) (a : AllocationChangeCollector) :
    List AllocationChange → World σ → Option GoError × World σ
  | [], w => (none, w)
  | change :: rest, w =>
    match fileStore with
    | some fs =>
      let fileInputData : FileInputData :=
        { Name := change.Filename, Path := change.Path, Hash := change.Hash }
      match fs.CommitWrite a.AllocationID fileInputData a.ConnectionID w.state with
      | ((_, some err), s) =>
        (some (common.NewError "file_store_error"
            ("Error committing to file store. " ++ env.ErrorText err)),
          w.record (Call.CommitWrite a.AllocationID fileInputData a.ConnectionID) (some err) s)
      | ((_, none), s) =>
        commitLoop env fileStore a rest
          (w.record (Call.CommitWrite a.AllocationID fileInputData a.ConnectionID) none s)
    | none => commitLoop env fileStore a rest w

/-- Go `(*AllocationChangeCollector).CommitToFileStore`. -/
def AllocationChangeCollector.CommitToFileStore {σ : Type} (env : Env)
    (fileStore : Option (FileStore σ)) (a : AllocationChangeCollector) (w : World σ) :
    Option GoError × World σ :=
  a.commitLoop env fileStore a.Changes w

/-! ## An in-memory world, used to run the definitions on examples -/

/-- Key-value pairs of the badger transaction, temp blobs and committed blobs. -/
structure MemWorld where
  kv : List (String × String) := []
  temp : List (String × FileInputData × String) := []
  files : List (String × FileInputData) := []
  deriving DecidableEq, Repr

/-- A file store over `MemWorld`: both methods fail when the temp blob is missing. -/
def memFileStore : FileStore MemWorld where
  DeleteTempFile := fun alloc f conn s =>
    if (alloc, f, conn) ∈ s.temp then
      (none, { s with temp := s.temp.filter (fun b => b ≠ (alloc, f, conn)) })
    else (some (GoError.other "remove: no such file or directory"), s)
  CommitWrite := fun alloc f conn s =>
    if (alloc, f, conn) ∈ s.temp then
      ((true, none), { s with temp := s.temp.filter (fun b => b ≠ (alloc, f, conn)),
                              files := s.files ++ [(alloc, f)] })
    else ((false, some (GoError.other "rename: no such file or directory")), s)

/-- A badger transaction over `MemWorld`. -/
def memBadger : Badger MemWorld String where
  Get := fun k s =>
    match s.kv.lookup k with
    | some v => .ok v
    | none => .error GoError.badgerErrKeyNotFound
  ValueCopy := fun v => .ok v
  Set := fun k v s => (none, { s with kv := (k, v) :: s.kv.filter (fun p => p.1 ≠ k) })
  Delete := fun k s => (none, { s with kv := s.kv.filter (fun p => p.1 ≠ k) })

/-- Two uploads and one delete intent of connection `conn1` on allocation `A1`. -/
def toyCollector : AllocationChangeCollector :=
  { ConnectionID := "conn1", AllocationID := "A1", ClientID := "client1",
    Changes :=
      [ { Filename := "readme.txt", Path := "/docs/readme.txt", Hash := "h1", Size := 120,
          Operation := INSERT_OPERATION },
        { Filename := "old.txt", Path := "/old.txt", Hash := "h0",
          Operation := DELETE_OPERATION },
        { Filename := "b.txt", Path := "/b.txt", Hash := "h2", Size := 7,
          Operation := INSERT_OPERATION } ] }

/-- Temp blob of `/docs/readme.txt`. -/
def blobReadme : String × FileInputData × String :=
  ("A1", { Name := "readme.txt", Path := "/docs/readme.txt", Hash := "h1" }, "conn1")

/-- Temp blob of `/b.txt`. -/
def blobB : String × FileInputData × String :=
  ("A1", { Name := "b.txt", Path := "/b.txt", Hash := "h2" }, "conn1")

/-- Temp blob of `/old.txt`. -/
def blobOld : String × FileInputData × String :=
  ("A1", { Name := "old.txt", Path := "/old.txt", Hash := "h0" }, "conn1")

/-- A world where the collector record is stored and all temp blobs are present. -/
def worldFull : World MemWorld :=
  { state := { kv := [(toyCollector.GetKey toyEnv, "record")],
               temp := [blobReadme, blobOld, blobB] },
    log := [] }

/-- A world where the collector record is stored but the temp blob of `/docs/readme.txt` is
missing. -/
def worldMissing : World MemWorld :=
  { state := { kv := [(toyCollector.GetKey toyEnv, "record")], temp := [blobB] },
    log := [] }

/-- A JSON decoder stand-in that leaves the entity as it is. -/
def keepEntity (_ : String) (a : AllocationChangeCollector) :
    AllocationChangeCollector × Option GoError :=
  (a, none)

/-! ## allocation: ApplyChanges -/

/-- The body of the `for` loop of `ApplyChanges` for one insert-type change. The call
`fileref.CalculateHash(ctx, dbStore)` is the `CalculateHash` of `fileref.go`, whose results
are dropped. -/
def AllocationChangeCollector.applyChange {σ : Type} (env : Env) (reference : Reference σ)
    (dbStore : Store σ) (a : AllocationChangeCollector) (change : AllocationChange)
    (w : World σ) : Option GoError × World σ :=
  let fileref : FileRef := FileRefProvider env (reference.Now w.state)
  let fileref : FileRef := { fileref with AllocationID := a.AllocationID }
  let fileref : FileRef := { fileref with Name := change.Filename }
  let fileref : FileRef := { fileref with Path := change.Path }
  let fileref : FileRef := { fileref with Size := change.Size }
  let fileref : FileRef := { fileref with Type_ := env.FILE }
  let fileref : FileRef := { fileref with ContentHash := change.Hash }
  let fileref : FileRef := { fileref with CustomMeta := change.CustomMeta }
  let fileref : FileRef := { fileref with ActualFileSize := change.ActualSize }
  let fileref : FileRef := { fileref with ActualFileHash := change.ActualHash }
  let fileref : FileRef := { fileref with MerkleRoot := change.MerkleRoot }
  let fileref : FileRef := (fileref.CalculateHash env).1
  let parentdir := (env.Split change.Path).1
  let parentdir := env.Clean parentdir
  let parentRef : Ref := reference.RefProvider w.state
  let parentRef : Ref := { parentRef with AllocationID := a.AllocationID }
  let parentRef : Ref := { parentRef with Path := parentdir }
  let fileref : FileRef := { fileref with ParentRef := env.RefGetKey parentRef }
  match dbStore.Write fileref w.state with
  | (some err, s) =>
    (some (common.NewError "fileref_write_error"
        ("Error writing the file meta info. " ++ env.ErrorText err)),
      w.record (Call.Write fileref) (some err) s)
  | (none, s) =>
    let w1 := w.record (Call.Write fileref) none s
    match reference.CreateDirRefsIfNotExists dbStore a.AllocationID parentdir
        (fileref.GetKey env) w1.state with
    | (some err, s) =>
      (some (common.NewError "create_ref_error"
          ("Error creating the dir meta info. " ++ env.ErrorText err)),
        w1.record (Call.CreateDirRefsIfNotExists a.AllocationID parentdir (fileref.GetKey env))
          (some err) s)
    | (none, s) =>
      let w2 := w1.record
        (Call.CreateDirRefsIfNotExists a.AllocationID parentdir (fileref.GetKey env)) none s
      match dbStore.Read (env.RefGetKey parentRef) parentRef w2.state with
      | ((_, some err), s) =>
        (some (common.NewError "parent_ref_not_found"
            ("Parent dir meta data not found. " ++ env.ErrorText err)),
          w2.record (Call.Read (env.RefGetKey parentRef) parentRef) (some err) s)
      | ((parentRef1, none), s) =>
        let w3 := w2.record (Call.Read (env.RefGetKey parentRef) parentRef) none s
        match reference.RecalculateHashBottomUp dbStore parentRef1 w3.state with
        | (some err, s) =>
          (some (common.NewError "allocation_hash_error"
              ("Error calculating the allocation hash. " ++ env.ErrorText err)),
            w3.record (Call.RecalculateHashBottomUp parentRef1) (some err) s)
        | (none, s) => (none, w3.record (Call.RecalculateHashBottomUp parentRef1) none s)

/-- The `for` loop of `ApplyChanges` over the remaining changes. -/
def AllocationChangeCollector.applyLoop {σ : Type} (env : Env) (reference : Reference σ)
    (dbStore : Store σ) (a : AllocationChangeCollector) :
    List AllocationChange → World σ → Option GoError × World σ
  | [], w => (none, w)
  | change :: rest, w =>
    if change.Operation = INSERT_OPERATION then
      match a.applyChange env reference dbStore change w with
      | (some err, w1) => (some err, w1)
      | (none, w1) => applyLoop env reference dbStore a rest w1
    else applyLoop env reference dbStore a rest w

/-- Go `(*AllocationChangeCollector).ApplyChanges`: the returned `(*reference.Ref, error)` and
the world it leaves. `metaStore` is `a.GetEntityMetadata().GetStore()`; a nil `fileStore` or
`dbStore` is `none`. -/
def AllocationChangeCollector.ApplyChanges {σ : Type} (env : Env) (reference : Reference σ)
    (metaStore : Store σ) (_fileStore : Option (FileStore σ)) (dbStore : Option (Store σ))
    (a : AllocationChangeCollector) (w : World σ) :
    (Option Ref × Option GoError) × World σ :=
  let dbStore : Store σ :=
    match dbStore with
    | none => metaStore
    | some st => st
  match a.applyLoop env reference dbStore a.Changes w with
  | (some err, w1) => ((none, some err), w1)
  | (none, w1) =>
    match reference.GetRootReferenceFromStore dbStore a.AllocationID w1.state with
    | ((_, some err), s) =>
      ((none, some (common.NewError "root_ref_read_error"
          ("Error getting the root reference. " ++ env.ErrorText err))),
        w1.record (Call.GetRootReferenceFromStore a.AllocationID) (some err) s)
    | ((rootRef, none), s) =>
      ((rootRef, none), w1.record (Call.GetRootReferenceFromStore a.AllocationID) none s)

/-- The error code under which `ApplyChanges` reports the failure of a call. -/
def Call.errorCode : Call → String
  | .Write _ => "fileref_write_error"
  | .CreateDirRefsIfNotExists _ _ _ => "create_ref_error"
  | .Read _ _ => "parent_ref_not_found"
  | .RecalculateHashBottomUp _ => "allocation_hash_error"
  | .GetRootReferenceFromStore _ => "root_ref_read_error"
  | _ => ""

/-- The parent Ref that `ApplyChanges` prepares for a change: the provider's Ref `fresh` with
the allocation and the cleaned directory part of the path. -/
def parentRefOf (env : Env) (a : AllocationChangeCollector) (c : AllocationChange)
    (fresh : Ref) : Ref :=
  { fresh with AllocationID := a.AllocationID, Path := env.Clean (env.Split c.Path).1 }

/-- The FileRef that `ApplyChanges` is to write for an insert-type change, field by field:
`now` is the clock reading and `fresh` the provider's Ref of that iteration. -/
def fileRefOf (env : Env) (a : AllocationChangeCollector) (c : AllocationChange)
    (now : Int) (fresh : Ref) : FileRef :=
  { Version := "1.0"
    CreationDate := now
    Type_ := env.FILE
    AllocationID := a.AllocationID
    Name := c.Filename
    Path := c.Path
    Hash := env.Hash (FileRef.GetHashData
      { AllocationID := a.AllocationID, Type_ := env.FILE, Name := c.Filename, Path := c.Path,
        Size := c.Size, ContentHash := c.Hash, MerkleRoot := c.MerkleRoot,
        ActualFileSize := c.ActualSize, ActualFileHash := c.ActualHash })
    ParentRef := env.RefGetKey (parentRefOf env a c fresh)
    ChildRefs := []
    CustomMeta := c.CustomMeta
    ContentHash := c.Hash
    Size := c.Size
    MerkleRoot := c.MerkleRoot
    ActualFileSize := c.ActualSize
    ActualFileHash := c.ActualHash }

/-- The four calls of one insert-type change, in the order the code makes them: `p` holds
the clock reading, the provider's Ref and the parent Ref as read back from the store. -/
def changeCalls (env : Env) (a : AllocationChangeCollector) (c : AllocationChange)
    (p : Int × Ref × Ref) : List Call :=
  [ Call.Write (fileRefOf env a c p.1 p.2.1),
    Call.CreateDirRefsIfNotExists a.AllocationID (env.Clean (env.Split c.Path).1)
      ((fileRefOf env a c p.1 p.2.1).GetKey env),
    Call.Read (env.RefGetKey (parentRefOf env a c p.2.1)) (parentRefOf env a c p.2.1),
    Call.RecalculateHashBottomUp p.2.2 ]

/-- What one insert-type change reads when its four calls run one after the other from
the state `s`: the clock, the provider's Ref, and the parent Ref that `dbStore.Read` returns
in the state left by the write of the FileRef and by `CreateDirRefsIfNotExists`. -/
def changeInput {σ : Type} (env : Env) (reference : Reference σ) (dbStore : Store σ)
    (a : AllocationChangeCollector) (c : AllocationChange) (s : σ) : Int × Ref × Ref :=
  let fr := fileRefOf env a c (reference.Now s) (reference.RefProvider s)
  let pr := parentRefOf env a c (reference.RefProvider s)
  let s1 := (dbStore.Write fr s).2
  let s2 := (reference.CreateDirRefsIfNotExists dbStore a.AllocationID
    (env.Clean (env.Split c.Path).1) (fr.GetKey env) s1).2
  (reference.Now s, reference.RefProvider s, (dbStore.Read (env.RefGetKey pr) pr s2).1.1)

/-- The state that the four calls of one insert-type change leave when they run one after
the other from the state `s`. -/
def changeState {σ : Type} (env : Env) (reference : Reference σ) (dbStore : Store σ)
    (a : AllocationChangeCollector) (c : AllocationChange) (s : σ) : σ :=
  let fr := fileRefOf env a c (reference.Now s) (reference.RefProvider s)
  let pr := parentRefOf env a c (reference.RefProvider s)
  let s1 := (dbStore.Write fr s).2
  let s2 := (reference.CreateDirRefsIfNotExists dbStore a.AllocationID
    (env.Clean (env.Split c.Path).1) (fr.GetKey env) s1).2
  let r := dbStore.Read (env.RefGetKey pr) pr s2
  (reference.RecalculateHashBottomUp dbStore r.1.1 r.2).2

/-- The calls of the loop of a run that starts in the state `s`, were no call to fail: for
the insert-type changes, in list order, the four calls of `changeCalls`, each change
starting in the state the previous one left; nothing for the other changes. -/
def runCalls {σ : Type} (env : Env) (reference : Reference σ) (dbStore : Store σ)
    (a : AllocationChangeCollector) : List AllocationChange → σ → List Call
  | [], _ => []
  | c :: rest, s =>
    if c.Operation = INSERT_OPERATION then
      changeCalls env a c (changeInput env reference dbStore a c s) ++
        runCalls env reference dbStore a rest (changeState env reference dbStore a c s)
    else runCalls env reference dbStore a rest s

/-- A datastore over `MemWorld`: `Write` stores the FileRef's name under its key, `Read`
succeeds on the keys that are present and decodes the stored value into the entity's Hash. -/
def memStore : Store MemWorld where
  Read := fun key ref s =>
    match s.kv.lookup key with
    | some v => (({ ref with Hash := v }, none), s)
    | none => ((ref, some GoError.datastoreErrKeyNotFound), s)
  Write := fun fr s =>
    (none, { s with kv := (fr.GetKey toyEnv, fr.Name) :: s.kv })

/-- Stand-ins over `MemWorld` for the functions of package `reference`: the directory and
the root get a key, the hash recalculation does nothing, the root is found when its key is
present; the clock stands still. -/
def memReference : Reference MemWorld where
  Now := fun _ => 1700000000
  RefProvider := fun _ => { Version := "1.0", CreationDate := 1700000000, Type_ := "d" }
  CreateDirRefsIfNotExists := fun _ alloc dir _ s =>
    (none, { s with kv := ("ref:" ++ alloc ++ ":" ++ dir, "stored-hash") ::
                          ("ref:" ++ alloc ++ ":/", "stored-hash") :: s.kv })
  RecalculateHashBottomUp := fun _ _ s => (none, s)
  GetRootReferenceFromStore := fun _ alloc s =>
    match s.kv.lookup ("ref:" ++ alloc ++ ":/") with
    | some _ => ((some { Version := "1.0", Type_ := "d", AllocationID := alloc, Path := "/" },
        none), s)
    | none => ((none, some GoError.datastoreErrKeyNotFound), s)

/-- The scenario of section 8 of the specification: connection `C1` inserts
`/docs/readme.txt` (content hash `h1`, size 120) into allocation `A1`. -/
def scenarioCollector : AllocationChangeCollector :=
  { ConnectionID := "C1", AllocationID := "A1",
    Changes :=
      [ { Filename := "readme.txt", Path := "/docs/readme.txt", Hash := "h1", Size := 120,
          Operation := INSERT_OPERATION } ] }

/-- The FileRef written in the scenario under `toyEnv` and `memReference`. -/
def scenarioFileRef : FileRef :=
  { Version := "1.0", CreationDate := 1700000000, Type_ := "f", AllocationID := "A1",
    Name := "readme.txt", Path := "/docs/readme.txt",
    Hash := ":::::::::A1:f:readme.txt:/docs/readme.txt:x:h1::\x00:",
    ParentRef := "ref:A1:/docs", ContentHash := "h1", Size := 120 }

/-- The parent Ref prepared in the scenario. -/
def scenarioParentRef : Ref :=
  { Version := "1.0", CreationDate := 1700000000, Type_ := "d", AllocationID := "A1",
    Path := "/docs" }

/-- The parent Ref as `memStore.Read` returns it in the scenario. -/
def scenarioParentRead : Ref :=
  { scenarioParentRef with Hash := "stored-hash" }

/-- An empty world. -/
def worldEmpty : World MemWorld :=
  { state := {}, log := [] }

/-- Go type `ChallengeStatus` (an `int`). -/
abbrev ChallengeStatus : Type := Int

/-- Go constant `Error`. -/
def Error : ChallengeStatus := 3

/-- Go struct `ValidationNode`. -/
structure ValidationNode where
  ID : String := ""
  URL : String := ""
  deriving DecidableEq, Repr

/-- Modelled from the spec: the struct `transaction.StorageNode` (declared outside the four
files), the descriptor of the blobber. -/
structure StorageNode where
  ID : String := ""
  BaseURL : String := ""
  deriving DecidableEq, Repr

/-- Go struct `ChallengeEntity`. -/
structure ChallengeEntity where
  Version : String := ""
  CreationDate : Int := 0
  ID : String := ""
  Validators : List ValidationNode := []
  RandomNumber : Int := 0
  AllocationID : String := ""
  Blobber : StorageNode := {}
  AllocationRoot : String := ""
  Status : ChallengeStatus := 0
  StatusMessage : String := ""
  CommitTxnID : String := ""
  BlockNum : Int := 0
  Retries : Int := 0
  WriteMarker : String := ""
  ValidationTickets : List ValidationTicket := []
  deriving DecidableEq, Repr

/-- Go `challenge.Provider`, the clock reading `common.Now()` being `now`. -/
def challenge.Provider (now : Int) : ChallengeEntity :=
  { Version := "1.0", CreationDate := now }

/-- Go `(*ChallengeEntity).GetKey`; the metadata's DB name is the `"challenge"` set by
`SetupEntity`. -/
def ChallengeEntity.GetKey (env : Env) (ch : ChallengeEntity) : String :=
  env.ToKey ("challenge" ++ ":" ++ ch.ID)

/-- Go `(*ChallengeEntity).Read`, the store of the metadata being the badger store. -/
def ChallengeEntity.Read {σ ι : Type} (db : Badger σ ι)
    (decode : String → ChallengeEntity → ChallengeEntity × Option GoError)
    (ch : ChallengeEntity) (key : String) (w : World σ) : ChallengeEntity × Option GoError :=
  badgerdbstore.Read db decode key ch w

/-- Go `(*ChallengeEntity).Write`, the store of the metadata being the badger store. -/
def ChallengeEntity.Write {σ ι : Type} (env : Env) (db : Badger σ ι)
    (encode : ChallengeEntity → Except GoError String) (ch : ChallengeEntity) (w : World σ) :
    Option GoError × World σ :=
  badgerdbstore.Write db (encode ch) (ch.GetKey env) w

/-- Go `(*ChallengeEntity).Delete`. -/
def ChallengeEntity.Delete {σ : Type} (_ch : ChallengeEntity) (_w : World σ) : Option GoError :=
  none

/-- C1 (evaluation at the scenario input). On the FileRef of the scenario the string that
CalculateHash hashes is not the nine values joined by colons with decimal sizes: it starts
with nine extra colons and the sizes 120 and 0 are rendered as the characters `x` and NUL.
CalculateHash does store and return the hash of that string, with a nil error. -/
theorem C1_GetHashData_scenario :
    readmeRef.GetHashData = ":::::::::A1:f:readme.txt:/docs/readme.txt:x:h1::\x00:" ∧
    readmeRef.GetHashData ≠ "A1:f:readme.txt:/docs/readme.txt:120:h1::0:" ∧
    ∀ env : Env, readmeRef.CalculateHash env =
      ({ readmeRef with Hash := env.Hash readmeRef.GetHashData },
        env.Hash readmeRef.GetHashData, none) := by
  refine ⟨by decide, by decide, fun env => rfl⟩

/-- C2 (evaluation at a failing input). Two FileRefs that differ only in Size (2 000 000
against 3 000 000 bytes) have the same GetHashData string, hence the same hash under every
hash function: both sizes are above the last code point and are rendered as U+FFFD. -/
theorem C2_GetHashData_size_collision :
    bigRef.Size ≠ ({ bigRef with Size := 3000000 } : FileRef).Size ∧
    ({ bigRef with Size := 3000000 } : FileRef).GetHashData = bigRef.GetHashData ∧
    ∀ env : Env, (({ bigRef with Size := 3000000 } : FileRef).CalculateHash env).2.1 =
      (bigRef.CalculateHash env).2.1 := by
  have h : ({ bigRef with Size := 3000000 } : FileRef).GetHashData = bigRef.GetHashData := by
    decide
  refine ⟨by decide, h, fun env => ?_⟩
  simp only [FileRef.CalculateHash, h]

/-! ### GetHashData and a change of one component -/

theorem intercalate_go_data (s : String) (l : List String) (acc : String) :
    (String.intercalate.go acc s l).data =
      acc.data ++ (l.map (fun x => s.data ++ x.data)).flatten := by
  induction l generalizing acc with
  | nil => simp [String.intercalate.go]
  | cons a as ih => simp [String.intercalate.go, ih]

theorem Join_single_change (pre post : List String) (x y sep : String)
    (h : strings.Join (pre ++ x :: post) sep = strings.Join (pre ++ y :: post) sep) :
    x = y := by
  have h2 := congrArg String.data h
  cases pre with
  | nil =>
    simp only [strings.Join, List.nil_append, String.intercalate, intercalate_go_data] at h2
    exact String.ext (List.append_cancel_right h2)
  | cons p pre =>
    simp only [strings.Join, List.cons_append, String.intercalate, intercalate_go_data,
      List.map_append, List.map_cons, List.flatten_append, List.flatten_cons,
      List.append_assoc, List.append_cancel_left_eq] at h2
    exact String.ext (List.append_cancel_right h2)

/-- When two FileRefs have the same GetHashData and their rendered values differ in at most
one position, they agree in that position too. -/
theorem GetHashData_single_component (fr fr' : FileRef) (pre post : List String)
    (x y : String) (h1 : fr.hashComponents = pre ++ x :: post)
    (h2 : fr'.hashComponents = pre ++ y :: post) (h : fr.GetHashData = fr'.GetHashData) :
    x = y := by
  have e1 : fr.GetHashData = strings.Join ((List.replicate 9 "" ++ pre) ++ x :: post) ":" := by
    rw [List.append_assoc, ← h1]; rfl
  have e2 : fr'.GetHashData = strings.Join ((List.replicate 9 "" ++ pre) ++ y :: post) ":" := by
    rw [List.append_assoc, ← h2]; rfl
  rw [e1, e2] at h
  exact Join_single_change _ _ _ _ _ h

/-- Replacing one of the seven string fields by a different value changes GetHashData; for
the two sizes it does so exactly when their one-character renderings differ. -/
theorem GetHashData_field_change (fr : FileRef) (v : String) (n : Int) :
    (({ fr with AllocationID := v } : FileRef).GetHashData = fr.GetHashData →
      v = fr.AllocationID) ∧
    (({ fr with Type_ := v } : FileRef).GetHashData = fr.GetHashData → v = fr.Type_) ∧
    (({ fr with Name := v } : FileRef).GetHashData = fr.GetHashData → v = fr.Name) ∧
    (({ fr with Path := v } : FileRef).GetHashData = fr.GetHashData → v = fr.Path) ∧
    (({ fr with ContentHash := v } : FileRef).GetHashData = fr.GetHashData →
      v = fr.ContentHash) ∧
    (({ fr with MerkleRoot := v } : FileRef).GetHashData = fr.GetHashData →
      v = fr.MerkleRoot) ∧
    (({ fr with ActualFileHash := v } : FileRef).GetHashData = fr.GetHashData →
      v = fr.ActualFileHash) ∧
    (({ fr with Size := n } : FileRef).GetHashData = fr.GetHashData →
      stringOfInt64 n = stringOfInt64 fr.Size) ∧
    (({ fr with ActualFileSize := n } : FileRef).GetHashData = fr.GetHashData →
      stringOfInt64 n = stringOfInt64 fr.ActualFileSize) := by
  refine ⟨fun h => ?_, fun h => ?_, fun h => ?_, fun h => ?_, fun h => ?_, fun h => ?_,
    fun h => ?_, fun h => ?_, fun h => ?_⟩
  · refine GetHashData_single_component _ fr
      []
      [fr.Type_, fr.Name, fr.Path, stringOfInt64 fr.Size, fr.ContentHash, fr.MerkleRoot, stringOfInt64 fr.ActualFileSize, fr.ActualFileHash] _ _ ?_ ?_ h <;> rfl
  · refine GetHashData_single_component _ fr
      [fr.AllocationID]
      [fr.Name, fr.Path, stringOfInt64 fr.Size, fr.ContentHash, fr.MerkleRoot, stringOfInt64 fr.ActualFileSize, fr.ActualFileHash] _ _ ?_ ?_ h <;> rfl
  · refine GetHashData_single_component _ fr
      [fr.AllocationID, fr.Type_]
      [fr.Path, stringOfInt64 fr.Size, fr.ContentHash, fr.MerkleRoot, stringOfInt64 fr.ActualFileSize, fr.ActualFileHash] _ _ ?_ ?_ h <;> rfl
  · refine GetHashData_single_component _ fr
      [fr.AllocationID, fr.Type_, fr.Name]
      [stringOfInt64 fr.Size, fr.ContentHash, fr.MerkleRoot, stringOfInt64 fr.ActualFileSize, fr.ActualFileHash] _ _ ?_ ?_ h <;> rfl
  · refine GetHashData_single_component _ fr
      [fr.AllocationID, fr.Type_, fr.Name, fr.Path, stringOfInt64 fr.Size]
      [fr.MerkleRoot, stringOfInt64 fr.ActualFileSize, fr.ActualFileHash] _ _ ?_ ?_ h <;> rfl
  · refine GetHashData_single_component _ fr
      [fr.AllocationID, fr.Type_, fr.Name, fr.Path, stringOfInt64 fr.Size, fr.ContentHash]
      [stringOfInt64 fr.ActualFileSize, fr.ActualFileHash] _ _ ?_ ?_ h <;> rfl
  · refine GetHashData_single_component _ fr
      [fr.AllocationID, fr.Type_, fr.Name, fr.Path, stringOfInt64 fr.Size, fr.ContentHash, fr.MerkleRoot, stringOfInt64 fr.ActualFileSize]
      [] _ _ ?_ ?_ h <;> rfl
  · refine GetHashData_single_component _ fr
      [fr.AllocationID, fr.Type_, fr.Name, fr.Path]
      [fr.ContentHash, fr.MerkleRoot, stringOfInt64 fr.ActualFileSize, fr.ActualFileHash] _ _ ?_ ?_ h <;> rfl
  · refine GetHashData_single_component _ fr
      [fr.AllocationID, fr.Type_, fr.Name, fr.Path, stringOfInt64 fr.Size, fr.ContentHash, fr.MerkleRoot]
      [fr.ActualFileHash] _ _ ?_ ?_ h <;> rfl

/-! ### Decimal rendering is injective -/

theorem digitChar_val :
    ∀ k, k < 10 → (Nat.digitChar k).toNat - 48 = k ∧ Nat.digitChar k ≠ '-' := by
  decide

theorem toDigitsCore_spec : ∀ (fuel n : Nat) (ds : List Char), n < fuel →
    ∃ pre, Nat.toDigitsCore 10 fuel n ds = pre ++ ds ∧ decValue 0 pre = n ∧
      (∀ c ∈ pre, c ≠ '-') ∧ pre ≠ [] := by
  intro fuel
  induction fuel with
  | zero => intro n ds h; omega
  | succ fuel ih =>
    intro n ds h
    have hd := digitChar_val (n % 10) (Nat.mod_lt _ (by decide))
    unfold Nat.toDigitsCore
    by_cases h0 : n / 10 = 0
    · refine ⟨[Nat.digitChar (n % 10)], by simp [h0], ?_, ?_, by simp⟩
      · simp [decValue, hd.1]; omega
      · intro c hc; simp at hc; subst hc; exact hd.2
    · obtain ⟨pre, h1, h2, h3, _⟩ := ih (n / 10) (Nat.digitChar (n % 10) :: ds) (by omega)
      refine ⟨pre ++ [Nat.digitChar (n % 10)], by simp [h0, h1], ?_, ?_, by simp⟩
      · simp only [decValue, List.foldl_append, List.foldl_cons, List.foldl_nil] at h2 ⊢
        rw [h2, hd.1]; omega
      · intro c hc
        simp at hc
        rcases hc with hc | hc
        · exact h3 c hc
        · subst hc; exact hd.2

theorem repr_spec (n : Nat) :
    decValue 0 (Nat.repr n).data = n ∧ (∀ c ∈ (Nat.repr n).data, c ≠ '-') ∧
      (Nat.repr n).data ≠ [] := by
  obtain ⟨pre, h1, h2, h3, h4⟩ := toDigitsCore_spec (n + 1) n [] (by omega)
  simp only [List.append_nil] at h1
  simp only [Nat.repr, Nat.toDigits, h1, List.asString]
  exact ⟨h2, h3, h4⟩

theorem FormatInt_injective : Function.Injective FormatInt := by
  intro a b h
  cases a with
  | ofNat a =>
    cases b with
    | ofNat b =>
      simp only [FormatInt] at h
      have := (repr_spec a).1
      rw [h, (repr_spec b).1] at this
      simp [this]
    | negSucc b =>
      simp only [FormatInt] at h
      exfalso
      have h2 := (repr_spec a).2.1
      rw [h] at h2
      exact h2 '-' (by simp) rfl
  | negSucc a =>
    cases b with
    | ofNat b =>
      simp only [FormatInt] at h
      exfalso
      have h2 := (repr_spec b).2.1
      rw [← h] at h2
      exact h2 '-' (by simp) rfl
    | negSucc b =>
      simp only [FormatInt] at h
      have h' : (Nat.repr (a+1)).data = (Nat.repr (b+1)).data := by
        have := congrArg String.data h
        simpa using this
      have := (repr_spec (a+1)).1
      rw [h', (repr_spec (b+1)).1] at this
      have : a = b := by omega
      simp [this]

/-! ### ValidationTicket -/

theorem hashData_eq (vt : ValidationTicket) :
    vt.hashData = vt.ChallengeID ++ ":" ++ vt.BlobberID ++ ":" ++ vt.ValidatorID ++ ":" ++
      vt.ValidatorKey ++ ":" ++ FormatBool vt.Result ++ ":" ++ FormatInt vt.Timestamp := by
  apply String.ext
  simp [ValidationTicket.hashData, Sprintf, sprintfLoop, GoValue.format]

theorem hashData_data (vt : ValidationTicket) :
    vt.hashData.data = vt.ChallengeID.data ++ ':' :: (vt.BlobberID.data ++ ':' ::
      (vt.ValidatorID.data ++ ':' :: (vt.ValidatorKey.data ++ ':' ::
        ((FormatBool vt.Result).data ++ ':' :: (FormatInt vt.Timestamp).data)))) := by
  rw [hashData_eq]
  simp

/-- C3. VerifySign returns exactly the pair that encryption.Verify gives for the validator
key, the signature and the hash of the string
ChallengeID:BlobberID:ValidatorID:ValidatorKey:Result:Timestamp (Result as true or false,
Timestamp in decimal); replacing Message and MessageCode does not change the outcome. -/
theorem C3_VerifySign_digest (env : Env) (t : ValidationTicket) :
    t.VerifySign env =
      env.Verify t.ValidatorKey t.Signature
        (env.Hash (t.ChallengeID ++ ":" ++ t.BlobberID ++ ":" ++ t.ValidatorID ++ ":" ++
          t.ValidatorKey ++ ":" ++ (if t.Result then "true" else "false") ++ ":" ++
          FormatInt t.Timestamp)) ∧
    ∀ m mc : String,
      ({ t with Message := m, MessageCode := mc } : ValidationTicket).VerifySign env =
        t.VerifySign env := by
  refine ⟨?_, fun m mc => ?_⟩
  · simp only [ValidationTicket.VerifySign, hashData_eq, FormatBool]
  · simp only [ValidationTicket.VerifySign, hashData_eq]

theorem hashData_tamper (t : ValidationTicket) (r : Bool) (ts : Int)
    (hdiff : r ≠ t.Result ∨ ts ≠ t.Timestamp) :
    ({ t with Result := r, Timestamp := ts } : ValidationTicket).hashData ≠ t.hashData := by
  intro h
  have h2 := congrArg String.data h
  rw [hashData_data, hashData_data] at h2
  simp only [List.append_cancel_left_eq, List.cons.injEq, true_and] at h2
  by_cases hr : r = t.Result
  · rw [hr] at h2
    simp only [List.append_cancel_left_eq, List.cons.injEq, true_and] at h2
    have hts : ts = t.Timestamp := FormatInt_injective (String.ext h2)
    rcases hdiff with hd | hd
    · exact hd hr
    · exact hd hts
  · have h3 := congrArg List.head? h2
    cases r <;> cases hres : t.Result <;> simp_all [FormatBool]

/-- C4. When VerifySign accepts a ticket, the same ticket with another Result or another
Timestamp (same Signature) has a different digest string and is not accepted, provided
encryption.Hash is injective and encryption.Verify accepts a key and signature for at most
one digest. -/
theorem C4_tampered_ticket_rejected (env : Env) (t : ValidationTicket) (r : Bool) (ts : Int)
    (hHash : Function.Injective env.Hash)
    (hVerify : ∀ k s d1 d2, (env.Verify k s d1).1 = true → (env.Verify k s d2).1 = true →
      d1 = d2)
    (hok : (t.VerifySign env).1 = true)
    (hdiff : r ≠ t.Result ∨ ts ≠ t.Timestamp) :
    ({ t with Result := r, Timestamp := ts } : ValidationTicket).hashData ≠ t.hashData ∧
    (({ t with Result := r, Timestamp := ts } : ValidationTicket).VerifySign env).1 ≠ true := by
  have hne := hashData_tamper t r ts hdiff
  refine ⟨hne, fun h => hne ?_⟩
  simp only [ValidationTicket.VerifySign] at hok h
  exact hHash (hVerify _ _ _ _ h hok)

/-- C4, at a ticket signed under the toy environment: changing Result and Timestamp makes
it fail the verification. -/
theorem C4_tampered_ticket_rejected_witness :
    (({ toyTicket with Result := false, Timestamp := 1700000001 } :
        ValidationTicket).hashData ≠ toyTicket.hashData) ∧
    (({ toyTicket with Result := false, Timestamp := 1700000001 } :
        ValidationTicket).VerifySign toyEnv).1 ≠ true :=
  C4_tampered_ticket_rejected toyEnv toyTicket false 1700000001
    (fun _ _ h => h)
    (fun _ s d1 d2 h1 h2 => by
      have e1 : s = d1 := by simpa [toyEnv] using h1
      have e2 : s = d2 := by simpa [toyEnv] using h2
      exact e1.symm.trans e2)
    (by decide)
    (by decide)

/-! ### ChangeMap is derived from Changes -/

theorem foldl_set_apply (key : AllocationChange → String) (cs : List AllocationChange)
    (m : ChangeMapT) (k : String) :
    (List.foldl (fun (m : ChangeMapT) element => m.set (key element) element) m cs) k =
      ((cs.reverse.find? (fun c => decide (key c = k))).or (m k)) := by
  induction cs using List.reverseRecOn with
  | nil => simp
  | append_singleton cs c ih =>
    simp only [List.foldl_append, List.foldl_cons, List.foldl_nil, List.reverse_append,
      List.reverse_cons, List.reverse_nil, List.nil_append, List.singleton_append,
      List.find?_cons, ChangeMapT.set]
    by_cases hk : key c = k
    · simp [hk]
    · have hk' : ¬ k = key c := fun h => hk h.symm
      simp [hk, hk', ih]

theorem foldl_AddChange (env : Env) (cs : List AllocationChange)
    (a : AllocationChangeCollector) :
    (cs.foldl (AllocationChangeCollector.AddChange env) a) =
      { a with
        Changes := a.Changes ++ cs
        ChangeMap := List.foldl
          (fun (m : ChangeMapT) element =>
            m.set (env.GetReferenceLookup a.AllocationID element.Path) element)
          a.ChangeMap cs } := by
  induction cs generalizing a with
  | nil => simp
  | cons c cs ih =>
    rw [List.foldl_cons, ih]
    simp [AllocationChangeCollector.AddChange]

/-- C8. Starting from the provider's empty collector (with any identifiers set) and adding
the changes cs one by one with AddChange: Changes is cs in call order; ChangeMap is what
ComputeChangeMap builds from Changes over an empty map; every key maps to the last change
of Changes whose lookup key it is, and to nothing when there is none; and running
ComputeChangeMap changes nothing. -/
theorem C8_ChangeMap_derived_from_Changes (env : Env) (conn alloc client : String)
    (size lastUpdated : Int) (cs : List AllocationChange) :
    let a := cs.foldl (AllocationChangeCollector.AddChange env)
      { AllocationChangeCollectorProvider with
        ConnectionID := conn, AllocationID := alloc, ClientID := client, Size := size,
        LastUpdated := lastUpdated }
    a.Changes = cs ∧
    a.ChangeMap =
      (AllocationChangeCollector.ComputeChangeMap env
        { a with ChangeMap := ChangeMapT.empty }).ChangeMap ∧
    (∀ k, a.ChangeMap k =
      a.Changes.reverse.find? (fun c => decide (env.GetReferenceLookup alloc c.Path = k))) ∧
    AllocationChangeCollector.ComputeChangeMap env a = a := by
  intro a
  have ha : a = _ := foldl_AddChange env cs _
  simp only [AllocationChangeCollectorProvider, List.nil_append] at ha
  refine ⟨by rw [ha], by rw [ha]; rfl, fun k => ?_, ?_⟩
  · rw [ha]
    simp only [foldl_set_apply]
    simp [ChangeMapT.empty]
  · rw [ha]
    simp only [AllocationChangeCollector.ComputeChangeMap]
    congr 1
    funext k
    simp only [foldl_set_apply]
    cases (cs.reverse.find? fun c => decide (env.GetReferenceLookup alloc c.Path = k)) <;> simp

/-! ### DeleteChanges -/

theorem deleteLoop_log {σ : Type} (fs : FileStore σ) (a : AllocationChangeCollector)
    (cs : List AllocationChange) (w : World σ) :
    ((a.deleteLoop fs cs w).1 = none →
      (a.deleteLoop fs cs w).2.log = w.log ++
        ((cs.filter (fun c => c.Operation = INSERT_OPERATION)).map
          (fun c => Call.DeleteTempFile a.AllocationID
            { Name := c.Filename, Path := c.Path, Hash := c.Hash } a.ConnectionID)).map
          (fun c => { call := c, ok := true })) ∧
    (∀ err, (a.deleteLoop fs cs w).1 = some err →
      ∃ pre c post,
        (cs.filter (fun c => c.Operation = INSERT_OPERATION)).map
          (fun c => Call.DeleteTempFile a.AllocationID
            { Name := c.Filename, Path := c.Path, Hash := c.Hash } a.ConnectionID)
          = pre ++ c :: post ∧
        (a.deleteLoop fs cs w).2.log =
          w.log ++ pre.map (fun c => { call := c, ok := true }) ++ [{ call := c, ok := false }]) := by
  induction cs generalizing w with
  | nil => simp [AllocationChangeCollector.deleteLoop]
  | cons ch rest ih =>
    by_cases hop : ch.Operation = INSERT_OPERATION
    · simp only [AllocationChangeCollector.deleteLoop, hop, if_true]
      rcases hcall : fs.DeleteTempFile a.AllocationID
          { Name := ch.Filename, Path := ch.Path, Hash := ch.Hash } a.ConnectionID w.state
        with ⟨e, s⟩
      cases e with
      | some e0 =>
        simp only [List.filter_cons, hop, decide_True, if_true, List.map_cons]
        refine ⟨by simp, fun err _ => ⟨[], _, _, rfl, ?_⟩⟩
        simp [World.record]
      | none =>
        simp only [List.filter_cons, hop, decide_True, if_true, List.map_cons]
        obtain ⟨ih1, ih2⟩ := ih (w.record (Call.DeleteTempFile a.AllocationID
          { Name := ch.Filename, Path := ch.Path, Hash := ch.Hash } a.ConnectionID) none s)
        refine ⟨fun h => ?_, fun err h => ?_⟩
        · rw [ih1 h]; simp [World.record]
        · obtain ⟨pre, c, post, h1, h2⟩ := ih2 err h
          refine ⟨_ :: pre, c, post, by rw [h1]; rfl, ?_⟩
          rw [h2]; simp [World.record]
    · simp only [AllocationChangeCollector.deleteLoop, hop, if_false, List.filter_cons,
        decide_False]
      exact ih w

theorem memBadger_delete_get (k : String) (s s' : MemWorld)
    (h : memBadger.Delete k s = (none, s')) :
    memBadger.Get k s' = .error GoError.badgerErrKeyNotFound := by
  have hs : s' = { s with kv := s.kv.filter (fun p => p.1 ≠ k) } := by
    simp only [memBadger, Prod.mk.injEq, true_and] at h
    exact h.symm
  have hl : ∀ l : List (String × String), (l.filter (fun p => p.1 ≠ k)).lookup k = none := by
    intro l
    induction l with
    | nil => rfl
    | cons p l ih =>
      obtain ⟨pk, pv⟩ := p
      by_cases hp : pk = k
      · rw [List.filter_cons_of_neg (by simp [hp])]
        exact ih
      · have hk : (k == pk) = false := by simp [Ne.symm hp]
        rw [List.filter_cons_of_pos (by simp [hp])]
        simp only [List.lookup, hk]
        exact ih
  simp only [memBadger, hs, hl]

/-- C6 (as stated, at a failing run). The collector has two insert-type changes, but the
temp blob of the first is missing, so the first DeleteTempFile call fails: DeleteChanges
returns that error after one call instead of two, the temp blob of the second change stays,
the collector record is not deleted and reading its key still succeeds. -/
theorem C6_DeleteChanges_stops_on_error :
    (toyCollector.Changes.filter (fun c => c.Operation = INSERT_OPERATION)).length = 2 ∧
    (toyCollector.DeleteChanges toyEnv memBadger memFileStore worldMissing).1 =
      some (GoError.other "remove: no such file or directory") ∧
    (toyCollector.DeleteChanges toyEnv memBadger memFileStore worldMissing).2.log =
      [{ call := Call.DeleteTempFile "A1"
          { Name := "readme.txt", Path := "/docs/readme.txt", Hash := "h1" } "conn1",
         ok := false }] ∧
    (toyCollector.DeleteChanges toyEnv memBadger memFileStore worldMissing).2.state.temp =
      [blobB] ∧
    (badgerdbstore.Read memBadger keepEntity (toyCollector.GetKey toyEnv) toyCollector
      (toyCollector.DeleteChanges toyEnv memBadger memFileStore worldMissing).2).2 = none := by
  decide

/-- C6 (amended). DeleteChanges calls DeleteTempFile for the insert-type changes only, in
list order, with (AllocationID, (Filename, Path, Hash), ConnectionID), and stops at the first
call that fails. When it returns nil, it has made exactly one successful call per insert-type
change and then one successful delete of the collector record under its key, after which
reading that key reports not-found (for a transaction in which a deleted key is not found).
When it returns an error, either a DeleteTempFile call failed, no later call was made and the
record was not deleted, or all DeleteTempFile calls succeeded and the delete of the record
failed. -/
theorem C6_DeleteChanges_calls {σ ι : Type} (env : Env) (db : Badger σ ι) (fs : FileStore σ)
    (a : AllocationChangeCollector) (w : World σ)
    (decode : String → AllocationChangeCollector → AllocationChangeCollector × Option GoError)
    (hDel : ∀ k s s', db.Delete k s = (none, s') →
      db.Get k s' = .error GoError.badgerErrKeyNotFound) :
    ((a.DeleteChanges env db fs w).1 = none →
      (a.DeleteChanges env db fs w).2.log = w.log ++
        ((a.Changes.filter (fun c => c.Operation = INSERT_OPERATION)).map
          (fun c => Call.DeleteTempFile a.AllocationID
            { Name := c.Filename, Path := c.Path, Hash := c.Hash } a.ConnectionID)).map
          (fun c => { call := c, ok := true })
        ++ [{ call := Call.TxnDelete (a.GetKey env), ok := true }] ∧
      ∀ e, (badgerdbstore.Read db decode (a.GetKey env) e (a.DeleteChanges env db fs w).2).2 =
        some GoError.datastoreErrKeyNotFound) ∧
    (∀ err, (a.DeleteChanges env db fs w).1 = some err →
      (∃ pre c post,
        (a.Changes.filter (fun c => c.Operation = INSERT_OPERATION)).map
          (fun c => Call.DeleteTempFile a.AllocationID
            { Name := c.Filename, Path := c.Path, Hash := c.Hash } a.ConnectionID)
          = pre ++ c :: post ∧
        (a.DeleteChanges env db fs w).2.log =
          w.log ++ pre.map (fun c => { call := c, ok := true }) ++
            [{ call := c, ok := false }]) ∨
      (a.DeleteChanges env db fs w).2.log = w.log ++
        ((a.Changes.filter (fun c => c.Operation = INSERT_OPERATION)).map
          (fun c => Call.DeleteTempFile a.AllocationID
            { Name := c.Filename, Path := c.Path, Hash := c.Hash } a.ConnectionID)).map
          (fun c => { call := c, ok := true })
        ++ [{ call := Call.TxnDelete (a.GetKey env), ok := false }]) := by
  obtain ⟨hl1, hl2⟩ := deleteLoop_log fs a a.Changes w
  rcases hloop : a.deleteLoop fs a.Changes w with ⟨e, w1⟩
  rw [hloop] at hl1 hl2
  cases e with
  | some e0 =>
    simp only [AllocationChangeCollector.DeleteChanges, hloop]
    refine ⟨by simp, fun err _ => Or.inl ?_⟩
    exact hl2 e0 rfl
  | none =>
    have hlog := hl1 rfl
    simp only at hlog
    simp only [AllocationChangeCollector.DeleteChanges, hloop,
      AllocationChangeCollector.Delete, badgerdbstore.Delete]
    rcases hd : db.Delete (a.GetKey env) w1.state with ⟨e, s⟩
    cases e with
    | some e1 =>
      refine ⟨by simp, fun err _ => Or.inr ?_⟩
      simp [World.record, hlog]
    | none =>
      refine ⟨fun _ => ⟨by simp [World.record, hlog], fun ent => ?_⟩, by simp⟩
      simp [badgerdbstore.Read, World.record, hDel _ _ _ hd]

/-- C6 (amended), at a run where both temp blobs are present: two successful calls, then the
delete of the record, after which the key is not found. -/
theorem C6_DeleteChanges_calls_witness :
    ((toyCollector.DeleteChanges toyEnv memBadger memFileStore worldFull).1 = none →
      (toyCollector.DeleteChanges toyEnv memBadger memFileStore worldFull).2.log =
        worldFull.log ++
        ((toyCollector.Changes.filter (fun c => c.Operation = INSERT_OPERATION)).map
          (fun c => Call.DeleteTempFile toyCollector.AllocationID
            { Name := c.Filename, Path := c.Path, Hash := c.Hash }
            toyCollector.ConnectionID)).map
          (fun c => { call := c, ok := true })
        ++ [{ call := Call.TxnDelete (toyCollector.GetKey toyEnv), ok := true }] ∧
      ∀ e, (badgerdbstore.Read memBadger keepEntity (toyCollector.GetKey toyEnv) e
          (toyCollector.DeleteChanges toyEnv memBadger memFileStore worldFull).2).2 =
        some GoError.datastoreErrKeyNotFound) ∧
    (toyCollector.DeleteChanges toyEnv memBadger memFileStore worldFull).1 = none :=
  ⟨(C6_DeleteChanges_calls toyEnv memBadger memFileStore toyCollector worldFull keepEntity
      memBadger_delete_get).1, by decide⟩

/-! ### CommitToFileStore -/

theorem commitLoop_nil_store {σ : Type} (env : Env) (a : AllocationChangeCollector)
    (cs : List AllocationChange) (w : World σ) :
    a.commitLoop env none cs w = (none, w) := by
  induction cs with
  | nil => rfl
  | cons c rest ih => simpa [AllocationChangeCollector.commitLoop] using ih

theorem commitLoop_log {σ : Type} (env : Env) (fs : FileStore σ)
    (a : AllocationChangeCollector) (cs : List AllocationChange) (w : World σ) :
    ((a.commitLoop env (some fs) cs w).1 = none →
      (a.commitLoop env (some fs) cs w).2.log = w.log ++
        (cs.map (fun c => Call.CommitWrite a.AllocationID
            { Name := c.Filename, Path := c.Path, Hash := c.Hash } a.ConnectionID)).map
          (fun c => { call := c, ok := true })) ∧
    (∀ err, (a.commitLoop env (some fs) cs w).1 = some err →
      (∃ msg, err = GoError.commonError "file_store_error" msg) ∧
      ∃ pre c post,
        cs.map (fun c => Call.CommitWrite a.AllocationID
            { Name := c.Filename, Path := c.Path, Hash := c.Hash } a.ConnectionID)
          = pre ++ c :: post ∧
        (a.commitLoop env (some fs) cs w).2.log =
          w.log ++ pre.map (fun c => { call := c, ok := true }) ++
            [{ call := c, ok := false }]) := by
  induction cs generalizing w with
  | nil => simp [AllocationChangeCollector.commitLoop]
  | cons ch rest ih =>
    simp only [AllocationChangeCollector.commitLoop]
    rcases hcall : fs.CommitWrite a.AllocationID
        { Name := ch.Filename, Path := ch.Path, Hash := ch.Hash } a.ConnectionID w.state
      with ⟨⟨b, e⟩, s⟩
    cases e with
    | some e0 =>
      simp only [List.map_cons]
      refine ⟨by simp, fun err h =>
        ⟨⟨"Error committing to file store. " ++ env.ErrorText e0, ?_⟩, [], _, _, rfl, ?_⟩⟩
      · simp only [Option.some.injEq] at h
        exact h.symm
      · simp [World.record]
    | none =>
      simp only [List.map_cons]
      obtain ⟨ih1, ih2⟩ := ih (w.record (Call.CommitWrite a.AllocationID
        { Name := ch.Filename, Path := ch.Path, Hash := ch.Hash } a.ConnectionID) none s)
      refine ⟨fun h => ?_, fun err h => ?_⟩
      · rw [ih1 h]; simp [World.record]
      · obtain ⟨hmsg, pre, c, post, h1, h2⟩ := ih2 err h
        refine ⟨hmsg, _ :: pre, c, post, by rw [h1]; rfl, ?_⟩
        rw [h2]; simp [World.record]

/-- C7 (as stated, at a failing run). With a nil file store and a collector of three changes
whose temp blobs are all present, CommitToFileStore makes no CommitWrite call, commits no
blob, and still returns no error. -/
theorem C7_CommitToFileStore_nil_store :
    toyCollector.Changes.length = 3 ∧
    (toyCollector.CommitToFileStore toyEnv none worldFull).1 = none ∧
    (toyCollector.CommitToFileStore toyEnv none worldFull).2.log = [] ∧
    (toyCollector.CommitToFileStore toyEnv none worldFull).2.state.files = [] ∧
    (toyCollector.CommitToFileStore toyEnv none worldFull).2.state.temp =
      [blobReadme, blobOld, blobB] := by
  decide

/-- C7 (amended). With a non-nil file store, CommitToFileStore calls CommitWrite for the
changes in list order with (AllocationID, (Filename, Path, Hash), ConnectionID); it returns
nil exactly when the call of every change succeeded; when a call fails it returns a
file_store_error, has made no call for a later change, and has made no other call (nothing
is undone). With a nil file store it makes no call, leaves the world as it is and returns
nil. -/
theorem C7_CommitToFileStore_calls {σ : Type} (env : Env) (fileStore : Option (FileStore σ))
    (a : AllocationChangeCollector) (w : World σ) :
    match fileStore with
    | none => a.CommitToFileStore env fileStore w = (none, w)
    | some _ =>
      ((a.CommitToFileStore env fileStore w).1 = none ↔
        (a.CommitToFileStore env fileStore w).2.log = w.log ++
          (a.Changes.map (fun c => Call.CommitWrite a.AllocationID
              { Name := c.Filename, Path := c.Path, Hash := c.Hash } a.ConnectionID)).map
            (fun c => { call := c, ok := true })) ∧
      (∀ err, (a.CommitToFileStore env fileStore w).1 = some err →
        (∃ msg, err = GoError.commonError "file_store_error" msg) ∧
        ∃ pre c post,
          a.Changes.map (fun c => Call.CommitWrite a.AllocationID
              { Name := c.Filename, Path := c.Path, Hash := c.Hash } a.ConnectionID)
            = pre ++ c :: post ∧
          (a.CommitToFileStore env fileStore w).2.log =
            w.log ++ pre.map (fun c => { call := c, ok := true }) ++
              [{ call := c, ok := false }]) := by
  cases fileStore with
  | none => exact commitLoop_nil_store env a a.Changes w
  | some fs =>
    obtain ⟨h1, h2⟩ := commitLoop_log env fs a a.Changes w
    refine ⟨⟨h1, fun hlog => ?_⟩, h2⟩
    cases hres : (a.CommitToFileStore env (some fs) w).1 with
    | none => rfl
    | some err =>
      exfalso
      obtain ⟨_, pre, c, post, hc, hl⟩ := h2 err hres
      have hlog' : (a.commitLoop env (some fs) a.Changes w).2.log = _ := hlog
      rw [hl, hc, List.append_assoc] at hlog'
      have h3 := List.append_cancel_left hlog'
      simp only [List.map_append, List.map_cons] at h3
      have h4 := List.append_cancel_left h3
      simp at h4

/-! ### ApplyChanges -/

theorem applyChange_eq {σ : Type} (env : Env) (reference : Reference σ) (dbStore : Store σ)
    (a : AllocationChangeCollector) (c : AllocationChange) (w : World σ) :
    a.applyChange env reference dbStore c w =
      let fr := fileRefOf env a c (reference.Now w.state) (reference.RefProvider w.state)
      let pr := parentRefOf env a c (reference.RefProvider w.state)
      let dir := env.Clean (env.Split c.Path).1
      match dbStore.Write fr w.state with
      | (some err, s) =>
        (some (GoError.commonError "fileref_write_error"
            ("Error writing the file meta info. " ++ env.ErrorText err)),
          w.record (Call.Write fr) (some err) s)
      | (none, s) =>
        match reference.CreateDirRefsIfNotExists dbStore a.AllocationID dir (fr.GetKey env) s with
        | (some err, s1) =>
          (some (GoError.commonError "create_ref_error"
              ("Error creating the dir meta info. " ++ env.ErrorText err)),
            (w.record (Call.Write fr) none s).record
              (Call.CreateDirRefsIfNotExists a.AllocationID dir (fr.GetKey env)) (some err) s1)
        | (none, s1) =>
          match dbStore.Read (env.RefGetKey pr) pr s1 with
          | ((_, some err), s2) =>
            (some (GoError.commonError "parent_ref_not_found"
                ("Parent dir meta data not found. " ++ env.ErrorText err)),
              ((w.record (Call.Write fr) none s).record
                (Call.CreateDirRefsIfNotExists a.AllocationID dir (fr.GetKey env)) none s1).record
                (Call.Read (env.RefGetKey pr) pr) (some err) s2)
          | ((parent, none), s2) =>
            match reference.RecalculateHashBottomUp dbStore parent s2 with
            | (some err, s3) =>
              (some (GoError.commonError "allocation_hash_error"
                  ("Error calculating the allocation hash. " ++ env.ErrorText err)),
                (((w.record (Call.Write fr) none s).record
                  (Call.CreateDirRefsIfNotExists a.AllocationID dir (fr.GetKey env)) none s1).record
                  (Call.Read (env.RefGetKey pr) pr) none s2).record
                  (Call.RecalculateHashBottomUp parent) (some err) s3)
            | (none, s3) =>
              (none, (((w.record (Call.Write fr) none s).record
                  (Call.CreateDirRefsIfNotExists a.AllocationID dir (fr.GetKey env)) none s1).record
                  (Call.Read (env.RefGetKey pr) pr) none s2).record
                  (Call.RecalculateHashBottomUp parent) none s3) := by
  rfl
theorem applyChange_log {σ : Type} (env : Env) (reference : Reference σ) (dbStore : Store σ)
    (a : AllocationChangeCollector) (c : AllocationChange) (w : World σ) :
    ((a.applyChange env reference dbStore c w).1 = none →
      (a.applyChange env reference dbStore c w).2.log = w.log ++
        (changeCalls env a c (changeInput env reference dbStore a c w.state)).map
          (fun x => { call := x, ok := true }) ∧
      (a.applyChange env reference dbStore c w).2.state =
        changeState env reference dbStore a c w.state) ∧
    (∀ err, (a.applyChange env reference dbStore c w).1 = some err →
      ∃ pre x post,
        changeCalls env a c (changeInput env reference dbStore a c w.state)
          = pre ++ x :: post ∧
        (a.applyChange env reference dbStore c w).2.log =
          w.log ++ pre.map (fun x => { call := x, ok := true }) ++
            [{ call := x, ok := false }] ∧
        ∃ msg, err = GoError.commonError x.errorCode msg) := by
  rw [applyChange_eq]
  simp only []
  rcases h1 : dbStore.Write (fileRefOf env a c (reference.Now w.state)
    (reference.RefProvider w.state)) w.state with ⟨e1, s1⟩
  cases e1 with
  | some e1 =>
    simp only []
    refine ⟨by simp, fun err h => ?_⟩
    simp only [Option.some.injEq] at h
    subst h
    exact ⟨[], _, _, rfl, by simp [World.record, changeInput], _, rfl⟩
  | none =>
    simp only []
    rcases h2 : reference.CreateDirRefsIfNotExists dbStore a.AllocationID
      (env.Clean (env.Split c.Path).1)
      ((fileRefOf env a c (reference.Now w.state) (reference.RefProvider w.state)).GetKey env)
      s1 with ⟨e2, s2⟩
    cases e2 with
    | some e2 =>
      simp only []
      refine ⟨by simp, fun err h => ?_⟩
      simp only [Option.some.injEq] at h
      subst h
      exact ⟨[_], _, _, rfl, by simp [World.record, changeInput], _, rfl⟩
    | none =>
      simp only []
      rcases h3 : dbStore.Read
        (env.RefGetKey (parentRefOf env a c (reference.RefProvider w.state)))
        (parentRefOf env a c (reference.RefProvider w.state)) s2 with ⟨⟨parent, e3⟩, s3⟩
      have hin : changeInput env reference dbStore a c w.state =
          (reference.Now w.state, reference.RefProvider w.state, parent) := by
        simp only [changeInput, h1, h2, h3]
      cases e3 with
      | some e3 =>
        simp only []
        refine ⟨by simp, fun err h => ?_⟩
        simp only [Option.some.injEq] at h
        subst h
        rw [hin]
        exact ⟨[_, _], _, _, rfl, by simp [World.record], _, rfl⟩
      | none =>
        simp only []
        rcases h4 : reference.RecalculateHashBottomUp dbStore parent s3 with ⟨e4, s4⟩
        cases e4 with
        | some e4 =>
          simp only []
          refine ⟨by simp, fun err h => ?_⟩
          simp only [Option.some.injEq] at h
          subst h
          rw [hin]
          exact ⟨[_, _, _], _, [], rfl, by simp [World.record], _, rfl⟩
        | none =>
          simp only []
          refine ⟨fun _ => ⟨?_, ?_⟩, by simp⟩
          · rw [hin]
            simp [World.record, changeCalls]
          · simp only [World.record, changeState, h1, h2, h3, h4]

theorem applyLoop_log {σ : Type} (env : Env) (reference : Reference σ) (dbStore : Store σ)
    (a : AllocationChangeCollector) (cs : List AllocationChange) (w : World σ) :
    ((a.applyLoop env reference dbStore cs w).1 = none →
      (a.applyLoop env reference dbStore cs w).2.log = w.log ++
        (runCalls env reference dbStore a cs w.state).map
          (fun x => { call := x, ok := true })) ∧
    (∀ err, (a.applyLoop env reference dbStore cs w).1 = some err →
      ∃ pre x post,
        runCalls env reference dbStore a cs w.state = pre ++ x :: post ∧
        (a.applyLoop env reference dbStore cs w).2.log =
          w.log ++ pre.map (fun x => { call := x, ok := true }) ++
            [{ call := x, ok := false }] ∧
        ∃ msg, err = GoError.commonError x.errorCode msg) := by
  induction cs generalizing w with
  | nil => simp [AllocationChangeCollector.applyLoop, runCalls]
  | cons c rest ih =>
    by_cases hop : c.Operation = INSERT_OPERATION
    · obtain ⟨hb1, hb2⟩ := applyChange_log env reference dbStore a c w
      simp only [AllocationChangeCollector.applyLoop, runCalls, hop, if_true]
      rcases hbody : a.applyChange env reference dbStore c w with ⟨e, w1⟩
      rw [hbody] at hb1 hb2
      cases e with
      | some e0 =>
        obtain ⟨pre, x, post, hc, hl, hmsg⟩ := hb2 e0 rfl
        refine ⟨by simp, fun err h => ?_⟩
        simp only [Option.some.injEq] at h
        subst h
        refine ⟨pre, x, post ++ runCalls env reference dbStore a rest
          (changeState env reference dbStore a c w.state), ?_, hl, hmsg⟩
        rw [hc]
        simp
      | none =>
        obtain ⟨hl, hs⟩ := hb1 rfl
        simp only at hl hs
        obtain ⟨ih1, ih2⟩ := ih w1
        rw [hs] at ih1 ih2
        refine ⟨fun h => ?_, fun err h => ?_⟩
        · rw [ih1 h, hl]
          simp
        · obtain ⟨pre, x, post, hc, hl2, hmsg⟩ := ih2 err h
          refine ⟨changeCalls env a c (changeInput env reference dbStore a c w.state) ++ pre,
            x, post, ?_, ?_, hmsg⟩
          · rw [hc]
            simp
          · rw [hl2, hl]
            simp
    · simpa only [AllocationChangeCollector.applyLoop, runCalls, hop, if_false] using ih w

theorem map_call_ok (l : List Call) :
    (l.map (fun x => ({ call := x, ok := true } : Event))).map Event.call = l := by
  induction l with
  | nil => rfl
  | cons x l ih => simp [ih]

/-- The calls of ApplyChanges when `dbStore` is nil and the store of the metadata is `st`. -/
theorem ApplyChanges_calls {σ : Type} (env : Env) (reference : Reference σ)
    (st : Store σ) (fileStore : Option (FileStore σ))
    (a : AllocationChangeCollector) (w : World σ) :
    ∃ evs,
      (a.ApplyChanges env reference st fileStore none w).2.log = w.log ++ evs ∧
      evs.map Event.call <+:
        runCalls env reference st a a.Changes w.state ++
          [Call.GetRootReferenceFromStore a.AllocationID] ∧
      ((a.ApplyChanges env reference st fileStore none w).1.2 = none →
        evs.map Event.call =
          runCalls env reference st a a.Changes w.state ++
            [Call.GetRootReferenceFromStore a.AllocationID]) := by
  simp only [AllocationChangeCollector.ApplyChanges]
  obtain ⟨h1, h2⟩ := applyLoop_log env reference st a a.Changes w
  rcases hloop : a.applyLoop env reference st a.Changes w with ⟨e, w1⟩
  rw [hloop] at h1 h2
  cases e with
  | some e0 =>
    obtain ⟨pre, x, post, hc, hl, _⟩ := h2 e0 rfl
    simp only at hl
    refine ⟨pre.map (fun x => { call := x, ok := true }) ++ [{ call := x, ok := false }],
      by simp [hl], ?_, by simp⟩
    rw [hc]
    simp only [List.map_append, map_call_ok, List.map_cons, List.map_nil]
    exact ⟨post ++ [Call.GetRootReferenceFromStore a.AllocationID], by simp⟩
  | none =>
    have hl := h1 rfl
    simp only at hl
    rcases hroot : reference.GetRootReferenceFromStore st a.AllocationID w1.state
      with ⟨⟨root, e⟩, s⟩
    cases e with
    | some e1 =>
      refine ⟨(runCalls env reference st a a.Changes w.state).map
          (fun x => { call := x, ok := true }) ++
        [{ call := Call.GetRootReferenceFromStore a.AllocationID, ok := false }],
        by simp [World.record, hl, hroot], ?_, by simp [hroot]⟩
      simp only [List.map_append, map_call_ok, List.map_cons, List.map_nil]
      exact List.prefix_refl _
    | none =>
      refine ⟨(runCalls env reference st a a.Changes w.state).map
          (fun x => { call := x, ok := true }) ++
        [{ call := Call.GetRootReferenceFromStore a.AllocationID, ok := true }],
        by simp [World.record, hl, hroot], ?_, fun _ => ?_⟩
      · simp only [List.map_append, map_call_ok, List.map_cons, List.map_nil]
        exact List.prefix_refl _
      · simp only [List.map_append, map_call_ok, List.map_cons, List.map_nil]

/-- C10 (as stated, at a failing run). In the scenario (one insert of `/docs/readme.txt`
into `A1`, every call succeeding) the calls of ApplyChanges are, in order: the write of the
FileRef, then CreateDirRefsIfNotExists for `/docs`, then the read of the parent, the hash
recalculation from the parent as read, and the read of the root. The FileRef is written
before its parent directory chain is ensured. -/
theorem C10_FileRef_written_before_parent_chain :
    (scenarioCollector.ApplyChanges toyEnv memReference memStore none none worldEmpty).2.log.map
        Event.call =
      [ Call.Write scenarioFileRef,
        Call.CreateDirRefsIfNotExists "A1" "/docs" "fileref:A1:/docs/readme.txt",
        Call.Read "ref:A1:/docs" scenarioParentRef,
        Call.RecalculateHashBottomUp scenarioParentRead,
        Call.GetRootReferenceFromStore "A1" ] := by
  decide

/-- C10 (amended). With `st` the store in use (`dbStore`, or the store of the metadata when
`dbStore` is nil), the calls of a run of ApplyChanges from the state `s` are an initial part
of the following list, and the whole list when it returns no error. For every insert-type
change, in recorded order, and from the state the previous change left: the write of the
FileRef built from the change (Name=Filename, Path, Size, Type=FILE, ContentHash=Hash,
MerkleRoot, ActualFileSize=ActualSize, ActualFileHash=ActualHash, CustomMeta, Hash of its hash
data, ParentRef the key of the parent directory); then CreateDirRefsIfNotExists for the
cleaned directory part of the path with the FileRef's key; then the read of the parent Ref
under its key; then RecalculateHashBottomUp of the Ref that this read returned in the state
left by the two calls before it. After the last change, the read of the root. Changes of
another type contribute no call. -/
theorem C10_ApplyChanges_call_order {σ : Type} (env : Env) (reference : Reference σ)
    (metaStore : Store σ) (fileStore : Option (FileStore σ)) (dbStore : Option (Store σ))
    (a : AllocationChangeCollector) (w : World σ) :
    (∀ (c : AllocationChange) (s : σ),
      changeCalls env a c (changeInput env reference (dbStore.getD metaStore) a c s) =
        [ Call.Write (fileRefOf env a c (reference.Now s) (reference.RefProvider s)),
          Call.CreateDirRefsIfNotExists a.AllocationID (env.Clean (env.Split c.Path).1)
            ((fileRefOf env a c (reference.Now s) (reference.RefProvider s)).GetKey env),
          Call.Read (env.RefGetKey (parentRefOf env a c (reference.RefProvider s)))
            (parentRefOf env a c (reference.RefProvider s)),
          Call.RecalculateHashBottomUp
            ((dbStore.getD metaStore).Read
              (env.RefGetKey (parentRefOf env a c (reference.RefProvider s)))
              (parentRefOf env a c (reference.RefProvider s))
              (reference.CreateDirRefsIfNotExists (dbStore.getD metaStore) a.AllocationID
                (env.Clean (env.Split c.Path).1)
                ((fileRefOf env a c (reference.Now s) (reference.RefProvider s)).GetKey env)
                ((dbStore.getD metaStore).Write
                  (fileRefOf env a c (reference.Now s) (reference.RefProvider s)) s).2).2).1.1 ]) ∧
    ∃ evs,
      (a.ApplyChanges env reference metaStore fileStore dbStore w).2.log = w.log ++ evs ∧
      evs.map Event.call <+:
        runCalls env reference (dbStore.getD metaStore) a a.Changes w.state ++
          [Call.GetRootReferenceFromStore a.AllocationID] ∧
      ((a.ApplyChanges env reference metaStore fileStore dbStore w).1.2 = none →
        evs.map Event.call =
          runCalls env reference (dbStore.getD metaStore) a a.Changes w.state ++
            [Call.GetRootReferenceFromStore a.AllocationID]) := by
  refine ⟨fun c s => rfl, ?_⟩
  cases dbStore with
  | none => exact ApplyChanges_calls env reference metaStore fileStore a w
  | some st => exact ApplyChanges_calls env reference st fileStore a w

/-- C7 (amended), at a run with a file store holding all three temp blobs: three successful
calls in list order. -/
theorem C7_CommitToFileStore_calls_witness :
    (toyCollector.CommitToFileStore toyEnv (some memFileStore) worldFull).2.log =
      worldFull.log ++
        (toyCollector.Changes.map (fun c => Call.CommitWrite toyCollector.AllocationID
            { Name := c.Filename, Path := c.Path, Hash := c.Hash }
            toyCollector.ConnectionID)).map
          (fun c => { call := c, ok := true }) :=
  (C7_CommitToFileStore_calls toyEnv (some memFileStore) toyCollector worldFull).1.mp
    (by decide)

/-! ### ChallengeEntity -/

end Blobber
